import Mathlib

/-!
# Verification of the `puppeteer-network-cache` core (`src/index.ts`)

Shallow embedding of the `NetworkCache` class and the plugin's ingest path:

* the bounded record store driven by the cache's own `'request'` listener
  (constructor, `src/index.ts` lines 54-61): validate, `push`, truncate with
  `slice(-cacheLimit)`;
* the point-in-time lookup `existRequest` (lines 77-79): `Array.prototype.find`
  over the stored records, testing the URL against the caller's pattern;
* the wait protocol `waitRequest` (lines 97-117): fast path through
  `existRequest`, otherwise a listener plus a timeout timer, with listener
  removal and timer clearing on both settlement paths;
* the emit performed by `onPageCreated`'s `page.on('request')` handler
  (lines 160-167), which publishes every built record on the cache's event
  emitter; the emitter invokes the storage listener and every registered wait
  listener with the record.

The response side of the class is verbatim symmetric (same store discipline,
same lookup, same wait protocol), so one record kind is modelled.

A URL pattern (`RegExp` used only through `.test`) is modelled as a pure
boolean predicate on the URL string. A validator (`requestValidatorFn`, which
may return a boolean or throw/reject) is modelled as `Except String Bool`.
-/

/-- An HTTP record as the cache core sees it: only the `url` string is ever
inspected (by `urlRegex.test(request.url())`), plus the `date` stamp attached
at ingest. All other payload fields are opaque to the core. -/
structure HttpRecord where
  url : String
  date : Nat
deriving DecidableEq, Repr, Inhabited

/-- A URL pattern: `RegExp.test` abstracted as a pure predicate on the URL. -/
abbrev Pattern := String → Bool

/-- A JS `Error` value as constructed by the cache: a `name` and a `message`. -/
structure JsError where
  name : String
  message : String
deriving DecidableEq, Repr

/-- A validator function (`requestValidatorFn`): returns a boolean decision or
throws/rejects, modelled as `Except`. The source default is `() => true`. -/
abbrev Validator := HttpRecord → Except String Bool

/-- The default validator of the source: `() => true` (save all records). -/
def acceptAll : Validator := fun _ => Except.ok true

/-- A validator that rejects every candidate (returns `false` on each). -/
def rejectAll : Validator := fun _ => Except.ok false

/-- JavaScript `arr.slice(-n)` for a nonnegative JS number `n`, as written at
line 58 (`this.requests.slice(-this.cacheLimit)`). For `n = 0` the argument
is `-0`, which JS treats as start index `0`, so the whole array is returned;
for `n > 0` the start index is `max (arr.length - n) 0`, i.e. the last `n`
elements (or all of them when fewer). -/
def jsSliceLast {α : Type} (l : List α) (n : Nat) : List α :=
  if n = 0 then l else l.drop (l.length - n)

/-- The mutable state of a `NetworkCache` instance that the request-side
operations touch: the `cacheLimit` field (default 100) and the `requests`
array. -/
structure NetworkCache where
  cacheLimit : Nat
  requests : List HttpRecord
deriving DecidableEq, Repr

/-- The cache's own storage listener, registered in the constructor
(lines 54-61): await the validator; if it returns `true`, push the record and
truncate with `slice(-cacheLimit)` when the length exceeds `cacheLimit`. If
the validator returns `false` the store is untouched; if the validator throws,
the async listener's promise rejects and the store is likewise untouched. -/
def onRequestStore (v : Validator) (nc : NetworkCache) (r : HttpRecord) : NetworkCache :=
  match v r with
  | Except.error _ => nc
  | Except.ok false => nc
  | Except.ok true =>
      let reqs := nc.requests ++ [r]
      if reqs.length > nc.cacheLimit then
        { nc with requests := jsSliceLast reqs nc.cacheLimit }
      else
        { nc with requests := reqs }

/-- A sequence of ingests folded through the storage listener. -/
def ingestAll (v : Validator) (nc : NetworkCache) (rs : List HttpRecord) : NetworkCache :=
  rs.foldl (onRequestStore v) nc

/-- Lookup (lines 77-79): `this.requests.find((request) => urlRegex.test(request.url()))`.
`Array.prototype.find` scans from index 0, i.e. from the oldest retained
record, and returns `undefined` (here `none`) when nothing matches. -/
def existRequest (nc : NetworkCache) (urlRegex : Pattern) : Option HttpRecord :=
  nc.requests.find? (fun r => urlRegex r.url)

/-- Settlement state of the promise created by `waitRequest`. -/
inductive WaitPhase where
  | pending
  | resolved (r : HttpRecord)
  | rejected (e : JsError)
deriving DecidableEq, Repr

/-- JS promise semantics: `resolve` settles a pending promise; calling it on an
already-settled promise is a no-op. -/
def promiseResolve (ph : WaitPhase) (r : HttpRecord) : WaitPhase :=
  match ph with
  | WaitPhase.pending => WaitPhase.resolved r
  | ph => ph

/-- JS promise semantics: `reject` settles a pending promise; calling it on an
already-settled promise is a no-op. -/
def promiseReject (ph : WaitPhase) (e : JsError) : WaitPhase :=
  match ph with
  | WaitPhase.pending => WaitPhase.rejected e
  | ph => ph

/-- The error constructed by the timeout handler at line 112:
`new Error('Timeout wait request')`. The `urlRegex` and `timeout` variables
are in scope there but do not flow into the error value. -/
def waitRequestTimeoutError (_urlRegex : Pattern) (_timeout : Nat) : JsError :=
  { name := "Error", message := "Timeout wait request" }

/-- The per-invocation state of one `waitRequest` call: the captured pattern
and timeout budget, the promise's settlement phase, whether its listener is
currently registered on the emitter, and whether its timeout timer is armed
(set and not yet cleared or fired). -/
structure WaitSt where
  pattern : Pattern
  timeout : Nat
  phase : WaitPhase
  listenerRegistered : Bool
  timerArmed : Bool

/-- The synchronous executor of `waitRequest` (lines 97-116): query
`existRequest` on the same cache; on a hit, resolve immediately — no listener
and no timer are ever created. Otherwise register the listener and arm the
timeout timer, leaving the promise pending. -/
def waitRequestStart (nc : NetworkCache) (urlRegex : Pattern) (timeout : Nat) : WaitSt :=
  match existRequest nc urlRegex with
  | some r =>
      { pattern := urlRegex, timeout := timeout, phase := WaitPhase.resolved r,
        listenerRegistered := false, timerArmed := false }
  | none =>
      { pattern := urlRegex, timeout := timeout, phase := WaitPhase.pending,
        listenerRegistered := true, timerArmed := true }

/-- One delivery of a record to a wait's listener (lines 102-108). The emitter
only invokes listeners that are currently registered. The listener itself
re-tests the pattern against the record's URL; on a match it clears the timer,
removes itself from the emitter, and resolves the promise; otherwise it does
nothing. -/
def listenerStep (w : WaitSt) (r : HttpRecord) : WaitSt :=
  if w.listenerRegistered then
    if w.pattern r.url then
      { w with timerArmed := false, listenerRegistered := false,
               phase := promiseResolve w.phase r }
    else w
  else w

/-- The timeout timer firing (lines 110-113). A timer only fires if it is
still armed (`clearTimeout` prevents firing, and `setTimeout` timers are
one-shot). The handler removes the wait's listener from the emitter and
rejects the promise with `new Error('Timeout wait request')`. -/
def timerFire (w : WaitSt) : WaitSt :=
  if w.timerArmed then
    { w with timerArmed := false, listenerRegistered := false,
             phase := promiseReject w.phase (waitRequestTimeoutError w.pattern w.timeout) }
  else w

/-- The two external triggers that can act on a pending wait over time: a
record delivered by the emitter, or the timeout timer expiring. -/
inductive WaitEvent where
  | deliver (r : HttpRecord)
  | timerExpire
deriving DecidableEq, Repr

/-- Process one trigger. -/
def waitStep (w : WaitSt) : WaitEvent → WaitSt
  | WaitEvent.deliver r => listenerStep w r
  | WaitEvent.timerExpire => timerFire w

/-- Process a sequence of triggers in order. -/
def waitRun (w : WaitSt) : List WaitEvent → WaitSt
  | [] => w
  | e :: evs => waitRun (waitStep w e) evs

/-- The outcome dictated by the first settling trigger in a trace: the first
delivered record matching the pattern resolves; a timer expiry before any
match rejects with the timeout error; a trace with neither leaves the wait
pending. -/
def firstTrigger (p : Pattern) (timeout : Nat) : List WaitEvent → WaitPhase
  | [] => WaitPhase.pending
  | WaitEvent.deliver r :: evs =>
      if p r.url then WaitPhase.resolved r else firstTrigger p timeout evs
  | WaitEvent.timerExpire :: _ =>
      WaitPhase.rejected (waitRequestTimeoutError p timeout)

/-- A cache together with the wait invocations currently attached to its
event emitter. -/
structure CacheSystem where
  nc : NetworkCache
  waits : List WaitSt

/-- The `page.on('request')` handler installed by `onPageCreated`
(lines 160-167): it builds the record and calls
`eventEmitter.emit('request', request)` unconditionally. The emitter invokes
the cache's own storage listener (which applies the validator before storing)
and every registered wait listener, each with the record. `emit` returns to
its caller without propagating anything: an exception inside the async
storage listener only rejects that listener's own promise (an unhandled
rejection) and is not surfaced to the emitting caller. -/
def emitRequest (v : Validator) (sys : CacheSystem) (r : HttpRecord) : CacheSystem :=
  { nc := onRequestStore v sys.nc r,
    waits := sys.waits.map (fun w => listenerStep w r) }

/-- A sequence of ingested records pushed through the emit path. -/
def emitTrace (v : Validator) (sys : CacheSystem) : List HttpRecord → CacheSystem
  | [] => sys
  | r :: rs => emitTrace v (emitRequest v sys r) rs

/-- Delivery of a record sequence to a list of wait listeners, with no
reference to any store or validator. -/
def deliverAll (ws : List WaitSt) (rs : List HttpRecord) : List WaitSt :=
  rs.foldl (fun ws r => ws.map (fun w => listenerStep w r)) ws

/-- Replace the element at one position by applying a function to it;
positions out of range leave the list unchanged. -/
def modifyNth {α : Type} (f : α → α) : Nat → List α → List α
  | _, [] => []
  | 0, x :: xs => f x :: xs
  | n + 1, x :: xs => x :: modifyNth f n xs

/-- The timeout handler of the wait registered at position `i` fires: the
closure captures that wait's own `listener`, `reject` and `timeoutTimer`
only, so the system-level effect is `timerFire` on that one wait
(lines 110-113); the store is not mentioned by the handler at all. -/
def sysTimerFire (sys : CacheSystem) (i : Nat) : CacheSystem :=
  { sys with waits := modifyNth timerFire i sys.waits }

/-! ## Basic facts about the storage listener -/

lemma onRequestStore_error {v : Validator} {nc : NetworkCache} {r : HttpRecord} {e : String}
    (h : v r = Except.error e) : onRequestStore v nc r = nc := by
  unfold onRequestStore
  rw [h]

lemma onRequestStore_false {v : Validator} {nc : NetworkCache} {r : HttpRecord}
    (h : v r = Except.ok false) : onRequestStore v nc r = nc := by
  unfold onRequestStore
  rw [h]

lemma onRequestStore_true {v : Validator} {nc : NetworkCache} {r : HttpRecord}
    (h : v r = Except.ok true) :
    onRequestStore v nc r =
      (if (nc.requests ++ [r]).length > nc.cacheLimit then
        { nc with requests := jsSliceLast (nc.requests ++ [r]) nc.cacheLimit }
      else { nc with requests := nc.requests ++ [r] }) := by
  unfold onRequestStore
  rw [h]

lemma onRequestStore_accepted {v : Validator} {nc : NetworkCache} {r : HttpRecord}
    (hv : v r = Except.ok true) (hC : 1 ≤ nc.cacheLimit) :
    onRequestStore v nc r =
      { nc with requests :=
          (nc.requests ++ [r]).drop ((nc.requests ++ [r]).length - nc.cacheLimit) } := by
  rw [onRequestStore_true hv]
  by_cases h : (nc.requests ++ [r]).length > nc.cacheLimit
  · rw [if_pos h]
    unfold jsSliceLast
    rw [if_neg (by omega)]
  · rw [if_neg h]
    have h0 : (nc.requests ++ [r]).length - nc.cacheLimit = 0 := by omega
    rw [h0, List.drop_zero]

lemma ingestAll_requests_drop (v : Validator) (C : Nat) (hC : 1 ≤ C) :
    ∀ (rs s : List HttpRecord), (∀ r ∈ rs, v r = Except.ok true) → s.length ≤ C →
      (ingestAll v { cacheLimit := C, requests := s } rs).requests
        = (s ++ rs).drop ((s ++ rs).length - C) := by
  intro rs
  induction rs with
  | nil =>
      intro s _ hs
      have h0 : (s ++ ([] : List HttpRecord)).length - C = 0 := by
        simp
        omega
      rw [h0, List.drop_zero]
      simp [ingestAll]
  | cons r rs ih =>
      intro s hv hs
      have hvr : v r = Except.ok true := hv r (List.mem_cons_self r rs)
      have hstep : onRequestStore v { cacheLimit := C, requests := s } r =
          { cacheLimit := C, requests := (s ++ [r]).drop ((s ++ [r]).length - C) } :=
        onRequestStore_accepted hvr hC
      have hfold : ingestAll v { cacheLimit := C, requests := s } (r :: rs)
          = ingestAll v { cacheLimit := C, requests := (s ++ [r]).drop ((s ++ [r]).length - C) } rs := by
        unfold ingestAll
        rw [List.foldl_cons, hstep]
      rw [hfold]
      have hlen : ((s ++ [r]).drop ((s ++ [r]).length - C)).length ≤ C := by
        rw [List.length_drop]
        omega
      rw [ih ((s ++ [r]).drop ((s ++ [r]).length - C))
            (fun x hx => hv x (List.mem_cons_of_mem r hx)) hlen]
      have hassoc : s ++ r :: rs = (s ++ [r]) ++ rs := by
        simp
      rw [hassoc]
      have hk_le : (s ++ [r]).length - C ≤ (s ++ [r]).length := by omega
      rw [← List.drop_append_of_le_length hk_le, List.length_drop, List.drop_drop]
      congr 1
      simp only [List.length_append, List.length_cons, List.length_nil]
      omega

/-! ## C2: capacity invariant -/

/-- Claim C2: for every capacity `C ≥ 1` and every sequence of `N` accepted
ingests, the store afterwards holds exactly the `min N C` most-recently
accepted records in insertion order (drop-oldest eviction), and its length
never exceeds `C` after any ingest of the sequence. -/
theorem C2_capacity (C : Nat) (v : Validator) (rs : List HttpRecord)
    (hC : 1 ≤ C) (hv : ∀ r ∈ rs, v r = Except.ok true) :
    (ingestAll v { cacheLimit := C, requests := [] } rs).requests
        = rs.drop (rs.length - C) ∧
    (ingestAll v { cacheLimit := C, requests := [] } rs).requests.length
        = min rs.length C ∧
    ∀ i, (ingestAll v { cacheLimit := C, requests := [] } (rs.take i)).requests.length ≤ C := by
  have h1 := ingestAll_requests_drop v C hC rs [] hv (by simp)
  rw [List.nil_append] at h1
  refine ⟨h1, ?_, ?_⟩
  · rw [h1, List.length_drop]
    omega
  · intro i
    have h2 := ingestAll_requests_drop v C hC (rs.take i) []
        (fun r hr => hv r (List.take_subset i rs hr)) (by simp)
    rw [List.nil_append] at h2
    rw [h2, List.length_drop]
    omega

/-- Witness for C2 at the spec's concrete scenario: capacity 2, ingest
A, B, C in order leaves the store as `[B, C]`. -/
theorem C2_capacity_witness :
    (ingestAll acceptAll { cacheLimit := 2, requests := [] }
        [{ url := "https://x/1", date := 1 }, { url := "https://x/2", date := 2 },
         { url := "https://x/3", date := 3 }]).requests
      = [{ url := "https://x/2", date := 2 }, { url := "https://x/3", date := 3 }] := by
  have h := C2_capacity 2 acceptAll
      [{ url := "https://x/1", date := 1 }, { url := "https://x/2", date := 2 },
       { url := "https://x/3", date := 3 }] (by omega) (fun r _ => rfl)
  rw [h.1]
  rfl

/-! ## C10: `cacheLimit = 0` disables eviction -/

/-- Claim C10: with the public `cacheLimit` field set to 0, the truncation
step `slice(-cacheLimit)` is `slice(-0) = slice(0)` and returns the whole
array, so every accepted ingest grows the store by one record and the bound
`length ≤ cacheLimit` is violated; eviction is enforced only for
`cacheLimit ≥ 1` (the latter being claim C2). -/
theorem C10_zero_limit :
    (∀ (l : List HttpRecord), jsSliceLast l 0 = l) ∧
    (∀ (nc : NetworkCache) (r : HttpRecord), nc.cacheLimit = 0 →
        (onRequestStore acceptAll nc r).requests = nc.requests ++ [r]) ∧
    (∀ (rs s : List HttpRecord),
        (ingestAll acceptAll { cacheLimit := 0, requests := s } rs).requests = s ++ rs) := by
  refine ⟨?_, ?_, ?_⟩
  · intro l
    simp [jsSliceLast]
  · intro nc r h
    rw [onRequestStore_true rfl]
    split
    · simp [jsSliceLast, h]
    · rfl
  · intro rs
    induction rs with
    | nil =>
        intro s
        simp [ingestAll]
    | cons r rs ih =>
        intro s
        have hstep : onRequestStore acceptAll { cacheLimit := 0, requests := s } r
            = { cacheLimit := 0, requests := s ++ [r] } := by
          rw [onRequestStore_true rfl]
          split
          · simp [jsSliceLast]
          · rfl
        have hfold : ingestAll acceptAll { cacheLimit := 0, requests := s } (r :: rs)
            = ingestAll acceptAll { cacheLimit := 0, requests := s ++ [r] } rs := by
          unfold ingestAll
          rw [List.foldl_cons, hstep]
        rw [hfold, ih (s ++ [r])]
        simp

/-- Witness for C10: with `cacheLimit = 0` and one record already stored, an
accepted ingest grows the store to length 2, violating `length ≤ 0`. -/
theorem C10_zero_limit_witness :
    (onRequestStore acceptAll
        { cacheLimit := 0, requests := [{ url := "https://z/0", date := 0 }] }
        { url := "https://z/1", date := 1 }).requests
      = [{ url := "https://z/0", date := 0 }, { url := "https://z/1", date := 1 }] ∧
    ¬ ((onRequestStore acceptAll
        { cacheLimit := 0, requests := [{ url := "https://z/0", date := 0 }] }
        { url := "https://z/1", date := 1 }).requests.length ≤ 0) := by
  have h := C10_zero_limit.2.1
      { cacheLimit := 0, requests := [{ url := "https://z/0", date := 0 }] }
      { url := "https://z/1", date := 1 } rfl
  constructor
  · rw [h]
    rfl
  · rw [h]
    decide

/-! ## C7: `existRequest` returns the earliest-retained match -/

lemma find?_first_match {α : Type} (q : α → Bool) :
    ∀ (l : List α) (a : α), l.find? q = some a →
      q a = true ∧ ∃ i, l.get? i = some a ∧
        ∀ j, j < i → ∀ b, l.get? j = some b → q b = false := by
  intro l
  induction l with
  | nil =>
      intro a h
      simp at h
  | cons x xs ih =>
      intro a h
      by_cases hx : q x = true
      · rw [List.find?_cons_of_pos _ hx] at h
        cases h
        refine ⟨hx, 0, rfl, ?_⟩
        intro j hj
        omega
      · rw [List.find?_cons_of_neg _ (by simpa using hx)] at h
        obtain ⟨hq, i, hi, hfirst⟩ := ih a h
        refine ⟨hq, i + 1, by simpa using hi, ?_⟩
        intro j hj b hb
        cases j with
        | zero =>
            have hxb : x = b := by simpa using hb
            rw [← hxb]
            simpa using hx
        | succ k =>
            exact hfirst k (by omega) b (by simpa using hb)

/-- Claim C7: `existRequest` performs a linear scan from index 0 (the oldest
retained record) and returns the earliest retained record whose URL matches
the pattern; it returns `none` — a normal result, not an error — exactly when
no retained record matches. -/
theorem C7_exist_earliest (nc : NetworkCache) (p : Pattern) :
    (∀ r, existRequest nc p = some r →
        p r.url = true ∧ ∃ i, nc.requests.get? i = some r ∧
          ∀ j, j < i → ∀ b, nc.requests.get? j = some b → p b.url = false) ∧
    (existRequest nc p = none ↔ ∀ r ∈ nc.requests, p r.url = false) := by
  constructor
  · intro r h
    unfold existRequest at h
    exact find?_first_match (fun r => p r.url) nc.requests r h
  · unfold existRequest
    rw [List.find?_eq_none]
    constructor
    · intro h r hr
      simpa using h r hr
    · intro h r hr
      simp [h r hr]

/-- Witness for C7: with two records matching the pattern at indices 1 and 2,
`existRequest` returns the one at index 1 (the earliest retained match) and
everything before it fails the pattern. -/
theorem C7_exist_earliest_witness :
    (fun u => u == "https://m/1") (HttpRecord.mk "https://m/1" 1).url = true ∧
    ∃ i, [HttpRecord.mk "https://u/0" 0, HttpRecord.mk "https://m/1" 1,
          HttpRecord.mk "https://m/1" 2].get? i = some (HttpRecord.mk "https://m/1" 1) ∧
      ∀ j, j < i → ∀ b, [HttpRecord.mk "https://u/0" 0, HttpRecord.mk "https://m/1" 1,
          HttpRecord.mk "https://m/1" 2].get? j = some b →
        (fun u => u == "https://m/1") b.url = false :=
  (C7_exist_earliest
      { cacheLimit := 100,
        requests := [HttpRecord.mk "https://u/0" 0, HttpRecord.mk "https://m/1" 1,
                     HttpRecord.mk "https://m/1" 2] }
      (fun u => u == "https://m/1")).1
    (HttpRecord.mk "https://m/1" 1) (by decide)

/-! ## C3: fast path of `waitRequest` -/

/-- Claim C3: if a matching record is in the store when `waitRequest` is
called, the wait resolves immediately with the very record `existRequest`
returns, and neither a listener nor a timeout timer is ever created;
conversely, if `existRequest` returns `none` at call time, the wait does not
resolve immediately — it starts pending, with its listener and timer
registered. Both paths consult the same store snapshot through the same
matcher, namely `existRequest` itself. -/
theorem C3_fast_path (nc : NetworkCache) (p : Pattern) (t : Nat) :
    (∀ r, existRequest nc p = some r →
        waitRequestStart nc p t =
          { pattern := p, timeout := t, phase := WaitPhase.resolved r,
            listenerRegistered := false, timerArmed := false }) ∧
    (existRequest nc p = none →
        waitRequestStart nc p t =
          { pattern := p, timeout := t, phase := WaitPhase.pending,
            listenerRegistered := true, timerArmed := true }) := by
  constructor
  · intro r h
    unfold waitRequestStart
    rw [h]
  · intro h
    unfold waitRequestStart
    rw [h]

/-- Witness for C3: a store already holding two matching records; the wait
resolves at once with the earliest one, with no listener and no timer. -/
theorem C3_fast_path_witness :
    waitRequestStart
      { cacheLimit := 100,
        requests := [HttpRecord.mk "https://s/1" 0, HttpRecord.mk "https://s/1" 7] }
      (fun u => u == "https://s/1") 20000
    = { pattern := fun u => u == "https://s/1", timeout := 20000,
        phase := WaitPhase.resolved (HttpRecord.mk "https://s/1" 0),
        listenerRegistered := false, timerArmed := false } :=
  (C3_fast_path
      { cacheLimit := 100,
        requests := [HttpRecord.mk "https://s/1" 0, HttpRecord.mk "https://s/1" 7] }
      (fun u => u == "https://s/1") 20000).1
    (HttpRecord.mk "https://s/1" 0) (by decide)

/-! ## The wait protocol over time -/

/-- States of a wait reachable from `waitRequestStart`: either pending with
its listener registered and its timer armed, or settled with both torn down. -/
def goodWait (w : WaitSt) : Prop :=
  (w.phase = WaitPhase.pending ∧ w.listenerRegistered = true ∧ w.timerArmed = true) ∨
  (w.phase ≠ WaitPhase.pending ∧ w.listenerRegistered = false ∧ w.timerArmed = false)

lemma goodWait_start (nc : NetworkCache) (p : Pattern) (t : Nat) :
    goodWait (waitRequestStart nc p t) := by
  cases h : existRequest nc p <;> simp [waitRequestStart, goodWait, h]

lemma listenerStep_not_registered {w : WaitSt} {r : HttpRecord}
    (h : w.listenerRegistered = false) : listenerStep w r = w := by
  unfold listenerStep
  rw [h]
  simp

lemma listenerStep_no_match {w : WaitSt} {r : HttpRecord}
    (h : w.pattern r.url = false) : listenerStep w r = w := by
  unfold listenerStep
  rw [h]
  simp

lemma listenerStep_match {w : WaitSt} {r : HttpRecord}
    (hreg : w.listenerRegistered = true) (hmatch : w.pattern r.url = true) :
    listenerStep w r =
      { w with timerArmed := false, listenerRegistered := false,
               phase := promiseResolve w.phase r } := by
  unfold listenerStep
  rw [hreg, hmatch]
  simp

lemma timerFire_not_armed {w : WaitSt} (h : w.timerArmed = false) : timerFire w = w := by
  unfold timerFire
  rw [h]
  simp

lemma timerFire_armed {w : WaitSt} (h : w.timerArmed = true) :
    timerFire w =
      { w with timerArmed := false, listenerRegistered := false,
               phase := promiseReject w.phase (waitRequestTimeoutError w.pattern w.timeout) } := by
  unfold timerFire
  rw [h]
  simp

lemma waitStep_settled {w : WaitSt} (hw : goodWait w) (hp : w.phase ≠ WaitPhase.pending) :
    ∀ e, waitStep w e = w := by
  rcases hw with ⟨hph, _⟩ | ⟨_, hreg, harm⟩
  · exact absurd hph hp
  · intro e
    cases e with
    | deliver r => exact listenerStep_not_registered hreg
    | timerExpire => exact timerFire_not_armed harm

lemma goodWait_step {w : WaitSt} (hw : goodWait w) (e : WaitEvent) :
    goodWait (waitStep w e) := by
  rcases hw with ⟨hph, hreg, harm⟩ | ⟨hph, hreg, harm⟩
  · cases e with
    | deliver r =>
        by_cases hm : w.pattern r.url = true
        · show goodWait (listenerStep w r)
          rw [listenerStep_match hreg hm]
          right
          simp [hph, promiseResolve]
        · show goodWait (listenerStep w r)
          rw [listenerStep_no_match (by simpa using hm)]
          left
          exact ⟨hph, hreg, harm⟩
    | timerExpire =>
        show goodWait (timerFire w)
        rw [timerFire_armed harm]
        right
        simp [hph, promiseReject]
  · rw [waitStep_settled (Or.inr ⟨hph, hreg, harm⟩) hph e]
    right
    exact ⟨hph, hreg, harm⟩

lemma waitRun_settled {w : WaitSt} (hw : goodWait w) (hp : w.phase ≠ WaitPhase.pending) :
    ∀ evs, waitRun w evs = w := by
  intro evs
  induction evs with
  | nil => rfl
  | cons e evs ih =>
      show waitRun (waitStep w e) evs = w
      rw [waitStep_settled hw hp e]
      exact ih

lemma goodWait_run :
    ∀ (evs : List WaitEvent) (w : WaitSt), goodWait w → goodWait (waitRun w evs) := by
  intro evs
  induction evs with
  | nil => intro w hw; exact hw
  | cons e evs ih => intro w hw; exact ih (waitStep w e) (goodWait_step hw e)

lemma waitRun_phase_pending :
    ∀ (evs : List WaitEvent) (w : WaitSt), goodWait w → w.phase = WaitPhase.pending →
      (waitRun w evs).phase = firstTrigger w.pattern w.timeout evs := by
  intro evs
  induction evs with
  | nil =>
      intro w _ hp
      exact hp
  | cons e evs ih =>
      intro w hw hp
      have hreg : w.listenerRegistered = true := by
        rcases hw with ⟨_, h, _⟩ | ⟨h, _, _⟩
        · exact h
        · exact absurd hp h
      have harm : w.timerArmed = true := by
        rcases hw with ⟨_, _, h⟩ | ⟨h, _, _⟩
        · exact h
        · exact absurd hp h
      cases e with
      | deliver r =>
          show (waitRun (listenerStep w r) evs).phase
              = firstTrigger w.pattern w.timeout (WaitEvent.deliver r :: evs)
          by_cases hm : w.pattern r.url = true
          · have hstep := listenerStep_match hreg hm
            have hph : (listenerStep w r).phase = WaitPhase.resolved r := by
              rw [hstep]
              simp [hp, promiseResolve]
            have hgood : goodWait (listenerStep w r) :=
              goodWait_step (Or.inl ⟨hp, hreg, harm⟩) (WaitEvent.deliver r)
            rw [waitRun_settled hgood (by rw [hph]; simp) evs, hph]
            simp only [firstTrigger]
            rw [if_pos hm]
          · rw [listenerStep_no_match (by simpa using hm)]
            rw [ih w (Or.inl ⟨hp, hreg, harm⟩) hp]
            simp only [firstTrigger]
            rw [if_neg hm]
      | timerExpire =>
          show (waitRun (timerFire w) evs).phase
              = firstTrigger w.pattern w.timeout (WaitEvent.timerExpire :: evs)
          have hstep := timerFire_armed harm
          have hph : (timerFire w).phase
              = WaitPhase.rejected (waitRequestTimeoutError w.pattern w.timeout) := by
            rw [hstep]
            simp [hp, promiseReject]
          have hgood : goodWait (timerFire w) :=
            goodWait_step (Or.inl ⟨hp, hreg, harm⟩) WaitEvent.timerExpire
          rw [waitRun_settled hgood (by rw [hph]; simp) evs, hph]
          rfl

lemma firstTrigger_ne_pending (p : Pattern) (t : Nat) :
    ∀ evs, WaitEvent.timerExpire ∈ evs → firstTrigger p t evs ≠ WaitPhase.pending := by
  intro evs
  induction evs with
  | nil =>
      intro h
      simp at h
  | cons e evs ih =>
      intro h
      cases e with
      | deliver r =>
          have hmem : WaitEvent.timerExpire ∈ evs := by
            rcases List.mem_cons.mp h with h1 | h1
            · exact absurd h1 (by simp)
            · exact h1
          simp only [firstTrigger]
          by_cases hm : p r.url = true
          · rw [if_pos hm]
            simp
          · rw [if_neg hm]
            exact ih hmem
      | timerExpire =>
          simp [firstTrigger]

/-! ## C6: exactly-once settlement -/

/-- Claim C6: every wait settles exactly once. The settled phase is dictated
by the fast path or, failing that, by the first settling trigger in the event
trace (whichever of a matching delivery or the timer expiry occurs first
wins); once the wait is settled, any further trigger — delivery or timer
expiry — is a guaranteed no-op on its state; and a trace in which the timer
does expire never leaves the wait unsettled. -/
theorem C6_exactly_once (nc : NetworkCache) (p : Pattern) (t : Nat) (evs : List WaitEvent) :
    (waitRun (waitRequestStart nc p t) evs).phase =
      (match existRequest nc p with
       | some r => WaitPhase.resolved r
       | none => firstTrigger p t evs) ∧
    (∀ e, (waitRun (waitRequestStart nc p t) evs).phase ≠ WaitPhase.pending →
        waitStep (waitRun (waitRequestStart nc p t) evs) e
          = waitRun (waitRequestStart nc p t) evs) ∧
    (WaitEvent.timerExpire ∈ evs →
        (waitRun (waitRequestStart nc p t) evs).phase ≠ WaitPhase.pending) := by
  have hgood : goodWait (waitRun (waitRequestStart nc p t) evs) :=
    goodWait_run evs (waitRequestStart nc p t) (goodWait_start nc p t)
  have h1 : (waitRun (waitRequestStart nc p t) evs).phase =
      (match existRequest nc p with
       | some r => WaitPhase.resolved r
       | none => firstTrigger p t evs) := by
    cases h : existRequest nc p with
    | some r =>
        have hstart : waitRequestStart nc p t =
            { pattern := p, timeout := t, phase := WaitPhase.resolved r,
              listenerRegistered := false, timerArmed := false } := by
          unfold waitRequestStart
          rw [h]
        rw [hstart, waitRun_settled (Or.inr ⟨by simp, rfl, rfl⟩) (by simp) evs]
    | none =>
        have hstart : waitRequestStart nc p t =
            { pattern := p, timeout := t, phase := WaitPhase.pending,
              listenerRegistered := true, timerArmed := true } := by
          unfold waitRequestStart
          rw [h]
        rw [hstart]
        have hrun := waitRun_phase_pending evs
            { pattern := p, timeout := t, phase := WaitPhase.pending,
              listenerRegistered := true, timerArmed := true }
            (Or.inl ⟨rfl, rfl, rfl⟩) rfl
        rw [hrun]
  refine ⟨h1, fun e hp => waitStep_settled hgood hp e, ?_⟩
  intro hmem
  rw [h1]
  cases h : existRequest nc p with
  | some r => simp
  | none =>
      show firstTrigger p t evs ≠ WaitPhase.pending
      exact firstTrigger_ne_pending p t evs hmem

/-- Witness for C6: on an empty store, deliver a matching record and then let
the timer try to expire: the wait ends resolved with that record, and the
late timer trigger is a no-op. -/
theorem C6_exactly_once_witness :
    (waitRun (waitRequestStart { cacheLimit := 100, requests := [] }
        (fun u => u == "https://r/1") 10)
        [WaitEvent.deliver (HttpRecord.mk "https://r/1" 3), WaitEvent.timerExpire]).phase
      = WaitPhase.resolved (HttpRecord.mk "https://r/1" 3) ∧
    waitStep (waitRun (waitRequestStart { cacheLimit := 100, requests := [] }
        (fun u => u == "https://r/1") 10)
        [WaitEvent.deliver (HttpRecord.mk "https://r/1" 3), WaitEvent.timerExpire])
        WaitEvent.timerExpire
      = waitRun (waitRequestStart { cacheLimit := 100, requests := [] }
        (fun u => u == "https://r/1") 10)
        [WaitEvent.deliver (HttpRecord.mk "https://r/1" 3), WaitEvent.timerExpire] := by
  constructor
  · have h := (C6_exactly_once { cacheLimit := 100, requests := [] }
        (fun u => u == "https://r/1") 10
        [WaitEvent.deliver (HttpRecord.mk "https://r/1" 3), WaitEvent.timerExpire]).1
    rw [h]
    decide
  · exact (C6_exactly_once { cacheLimit := 100, requests := [] }
        (fun u => u == "https://r/1") 10
        [WaitEvent.deliver (HttpRecord.mk "https://r/1" 3), WaitEvent.timerExpire]).2.1
      WaitEvent.timerExpire (by decide)

/-! ## C4: late-arrival correctness -/

lemma waitRun_append (w : WaitSt) (a b : List WaitEvent) :
    waitRun w (a ++ b) = waitRun (waitRun w a) b := by
  induction a generalizing w with
  | nil => rfl
  | cons e a ih => exact ih (waitStep w e)

lemma waitRun_deliver_no_match :
    ∀ (rs : List HttpRecord) (w : WaitSt), (∀ x ∈ rs, w.pattern x.url = false) →
      waitRun w (rs.map WaitEvent.deliver) = w := by
  intro rs
  induction rs with
  | nil =>
      intro w _
      rfl
  | cons x rs ih =>
      intro w hm
      show waitRun (listenerStep w x) (rs.map WaitEvent.deliver) = w
      rw [listenerStep_no_match (hm x (List.mem_cons_self x rs))]
      exact ih w (fun y hy => hm y (List.mem_cons_of_mem x hy))

/-- Claim C4: if no stored record matches the pattern at call time, the wait
stays pending through any number of delivered non-matching records (its
listener re-tests the pattern on each published record and stays subscribed),
and resolves with the first matching record delivered before the timer
expires. -/
theorem C4_late_arrival (nc : NetworkCache) (p : Pattern) (t : Nat)
    (rs : List HttpRecord) (r : HttpRecord)
    (hnone : existRequest nc p = none)
    (hmiss : ∀ x ∈ rs, p x.url = false)
    (hhit : p r.url = true) :
    waitRun (waitRequestStart nc p t) (rs.map WaitEvent.deliver) = waitRequestStart nc p t ∧
    (waitRun (waitRequestStart nc p t)
        (rs.map WaitEvent.deliver ++ [WaitEvent.deliver r])).phase
      = WaitPhase.resolved r := by
  have hstart : waitRequestStart nc p t =
      { pattern := p, timeout := t, phase := WaitPhase.pending,
        listenerRegistered := true, timerArmed := true } := by
    unfold waitRequestStart
    rw [hnone]
  have hnoop : waitRun (waitRequestStart nc p t) (rs.map WaitEvent.deliver)
      = waitRequestStart nc p t := by
    rw [hstart]
    exact waitRun_deliver_no_match rs _ (fun x hx => hmiss x hx)
  refine ⟨hnoop, ?_⟩
  rw [waitRun_append, hnoop, hstart]
  show (listenerStep { pattern := p, timeout := t, phase := WaitPhase.pending,
                       listenerRegistered := true, timerArmed := true } r).phase
         = WaitPhase.resolved r
  rw [listenerStep_match rfl hhit]
  rfl

/-- Witness for C4: empty store; one non-matching record leaves the wait
pending, then the matching record resolves it. -/
theorem C4_late_arrival_witness :
    waitRun (waitRequestStart { cacheLimit := 100, requests := [] }
        (fun u => u == "https://x/1") 50)
        ([HttpRecord.mk "https://no/" 2].map WaitEvent.deliver)
      = waitRequestStart { cacheLimit := 100, requests := [] }
        (fun u => u == "https://x/1") 50 ∧
    (waitRun (waitRequestStart { cacheLimit := 100, requests := [] }
        (fun u => u == "https://x/1") 50)
        ([HttpRecord.mk "https://no/" 2].map WaitEvent.deliver
          ++ [WaitEvent.deliver (HttpRecord.mk "https://x/1" 10)])).phase
      = WaitPhase.resolved (HttpRecord.mk "https://x/1" 10) :=
  C4_late_arrival { cacheLimit := 100, requests := [] } (fun u => u == "https://x/1") 50
    [HttpRecord.mk "https://no/" 2] (HttpRecord.mk "https://x/1" 10)
    (by decide) (by decide) (by decide)

/-! ## C5: timeout behaviour -/

/-- Claim C5 counterexample: the error rejected on timeout at line 112 is the
fixed `new Error('Timeout wait request')`. Two waits with different patterns
(they disagree on the URL `"https://a/"`) and different timeout budgets (30
vs 20000) reject with identical error values, so the error cannot carry the
pattern or the configured timeout value. -/
theorem C5_counterexample :
    waitRequestTimeoutError (fun u => u == "https://a/") 30
      = waitRequestTimeoutError (fun u => u == "https://b/") 20000 ∧
    (fun u => u == "https://a/") "https://a/" = true ∧
    (fun u => u == "https://b/") "https://a/" = false := by
  refine ⟨rfl, by decide, by decide⟩

/-- Claim C5 (amended): if the timer fires on a pending wait, the wait fails
with the fixed error `Error: "Timeout wait request"` — which carries neither
the pattern nor the configured timeout value — and its listener is
deregistered, so a matching record delivered after the timeout triggers no
stale callback (the delivery is a no-op on the wait). -/
theorem C5_timeout_amended (nc : NetworkCache) (p : Pattern) (t : Nat) (r : HttpRecord)
    (hnone : existRequest nc p = none) (hhit : p r.url = true) :
    (timerFire (waitRequestStart nc p t)).phase
      = WaitPhase.rejected { name := "Error", message := "Timeout wait request" } ∧
    (timerFire (waitRequestStart nc p t)).listenerRegistered = false ∧
    (timerFire (waitRequestStart nc p t)).timerArmed = false ∧
    listenerStep (timerFire (waitRequestStart nc p t)) r
      = timerFire (waitRequestStart nc p t) := by
  have hstart : waitRequestStart nc p t =
      { pattern := p, timeout := t, phase := WaitPhase.pending,
        listenerRegistered := true, timerArmed := true } := by
    unfold waitRequestStart
    rw [hnone]
  rw [hstart, timerFire_armed rfl]
  exact ⟨rfl, rfl, rfl, listenerStep_not_registered rfl⟩

/-- Witness for C5 (amended) at a concrete pending wait: empty store, pattern
matching `"https://t/1"`, budget 30; the timer fires, the promise rejects
with the fixed error, and a later matching delivery is a no-op. -/
theorem C5_timeout_amended_witness :
    (timerFire (waitRequestStart { cacheLimit := 100, requests := [] }
        (fun u => u == "https://t/1") 30)).phase
      = WaitPhase.rejected { name := "Error", message := "Timeout wait request" } ∧
    (timerFire (waitRequestStart { cacheLimit := 100, requests := [] }
        (fun u => u == "https://t/1") 30)).listenerRegistered = false ∧
    (timerFire (waitRequestStart { cacheLimit := 100, requests := [] }
        (fun u => u == "https://t/1") 30)).timerArmed = false ∧
    listenerStep (timerFire (waitRequestStart { cacheLimit := 100, requests := [] }
        (fun u => u == "https://t/1") 30)) (HttpRecord.mk "https://t/1" 99)
      = timerFire (waitRequestStart { cacheLimit := 100, requests := [] }
        (fun u => u == "https://t/1") 30) :=
  C5_timeout_amended { cacheLimit := 100, requests := [] } (fun u => u == "https://t/1") 30
    (HttpRecord.mk "https://t/1" 99) (by decide) (by decide)

/-! ## The emit path: storage is validator-gated, delivery is not -/

lemma emitTrace_nc (v : Validator) :
    ∀ (rs : List HttpRecord) (sys : CacheSystem),
      (emitTrace v sys rs).nc = ingestAll v sys.nc rs := by
  intro rs
  induction rs with
  | nil =>
      intro sys
      rfl
  | cons r rs ih =>
      intro sys
      show (emitTrace v (emitRequest v sys r) rs).nc = _
      rw [ih]
      rfl

lemma emitTrace_waits (v : Validator) :
    ∀ (rs : List HttpRecord) (sys : CacheSystem),
      (emitTrace v sys rs).waits = deliverAll sys.waits rs := by
  intro rs
  induction rs with
  | nil =>
      intro sys
      rfl
  | cons r rs ih =>
      intro sys
      show (emitTrace v (emitRequest v sys r) rs).waits = _
      rw [ih]
      rfl

lemma ingestAll_rejectAll :
    ∀ (rs : List HttpRecord) (nc : NetworkCache), ingestAll rejectAll nc rs = nc := by
  intro rs
  induction rs with
  | nil =>
      intro nc
      rfl
  | cons r rs ih =>
      intro nc
      show ingestAll rejectAll (onRequestStore rejectAll nc r) rs = nc
      rw [onRequestStore_false rfl]
      exact ih nc

/-! ## C1: validator rejection -/

/-- Claim C1 counterexample: with a validator that rejects all candidates,
ingesting a record whose URL matches a pending wait's pattern leaves the
store empty — yet the wait resolves with that very record (the emit at
line 166 publishes to wait listeners regardless of the validator), and a
subsequent timer expiry is a no-op, so this wait never times out. This
refutes "never delivered to any waiter" and "every wait fails with a
timeout". -/
theorem C1_counterexample :
    (emitRequest rejectAll
        { nc := { cacheLimit := 100, requests := [] },
          waits := [waitRequestStart { cacheLimit := 100, requests := [] }
              (fun u => u == "https://x/1") 20000] }
        { url := "https://x/1", date := 5 }).nc.requests = [] ∧
    ((emitRequest rejectAll
        { nc := { cacheLimit := 100, requests := [] },
          waits := [waitRequestStart { cacheLimit := 100, requests := [] }
              (fun u => u == "https://x/1") 20000] }
        { url := "https://x/1", date := 5 }).waits.map WaitSt.phase)
      = [WaitPhase.resolved { url := "https://x/1", date := 5 }] ∧
    ((emitRequest rejectAll
        { nc := { cacheLimit := 100, requests := [] },
          waits := [waitRequestStart { cacheLimit := 100, requests := [] }
              (fun u => u == "https://x/1") 20000] }
        { url := "https://x/1", date := 5 }).waits.map (fun w => (timerFire w).phase))
      = [WaitPhase.resolved { url := "https://x/1", date := 5 }] := by
  refine ⟨by decide, by decide, by decide⟩

/-- Claim C1 (amended): a validator that rejects all candidates keeps the
store empty after any sequence of ingests; however, rejected candidates are
still delivered to waiters — the published deliveries seen by the wait
listeners are a function of the ingested records alone (`deliverAll`),
independent of any validator — so a wait whose pattern matches ingested
traffic resolves instead of timing out. -/
theorem C1_rejection_amended (C : Nat) (ws : List WaitSt) (rs : List HttpRecord)
    (v : Validator) (sys : CacheSystem) :
    (emitTrace rejectAll
        { nc := { cacheLimit := C, requests := [] }, waits := ws } rs).nc.requests = [] ∧
    (emitTrace v sys rs).waits = deliverAll sys.waits rs := by
  constructor
  · rw [emitTrace_nc]
    show (ingestAll rejectAll { cacheLimit := C, requests := [] } rs).requests = []
    rw [ingestAll_rejectAll]
  · exact emitTrace_waits v rs sys

/-! ## C8: validator failure -/

/-- Claim C8 counterexample: with a validator that throws on every candidate,
ingesting a record matching a pending wait's pattern stores nothing, yet the
record is still published to the waiter, which resolves with it — refuting
"not published to waiters". The thrown error only rejects the async storage
listener's own promise; `emit` returns normally to the ingest caller, so the
failure is not surfaced there either. -/
theorem C8_counterexample :
    (emitRequest (fun _ => Except.error "validator exploded")
        { nc := { cacheLimit := 100, requests := [] },
          waits := [waitRequestStart { cacheLimit := 100, requests := [] }
              (fun u => u == "https://v/1") 20000] }
        { url := "https://v/1", date := 8 }).nc.requests = [] ∧
    ((emitRequest (fun _ => Except.error "validator exploded")
        { nc := { cacheLimit := 100, requests := [] },
          waits := [waitRequestStart { cacheLimit := 100, requests := [] }
              (fun u => u == "https://v/1") 20000] }
        { url := "https://v/1", date := 8 }).waits.map WaitSt.phase)
      = [WaitPhase.resolved { url := "https://v/1", date := 8 }] := by
  refine ⟨by decide, by decide⟩

/-- Claim C8 (amended): if the validator throws while deciding on a
candidate, the candidate is not stored (the store is unchanged), but it is
still published to every registered waiter — the delivery to wait listeners
does not consult the validator at all — and the failure is not surfaced to
the caller of the emit: it is swallowed as a rejection of the async storage
listener's own promise (`emitRequest` returns the new system state and no
error channel exists toward its caller). -/
theorem C8_validator_failure_amended (v : Validator) (sys : CacheSystem)
    (r : HttpRecord) (e : String) (h : v r = Except.error e) :
    (emitRequest v sys r).nc = sys.nc ∧
    (emitRequest v sys r).waits = sys.waits.map (fun w => listenerStep w r) := by
  constructor
  · show onRequestStore v sys.nc r = sys.nc
    exact onRequestStore_error h
  · rfl

/-- Witness for C8 (amended) at a throwing validator and a concrete system:
the store is untouched and the delivery still reaches the (empty, here)
listener list. -/
theorem C8_validator_failure_witness :
    (emitRequest (fun _ => Except.error "boom")
        { nc := { cacheLimit := 100, requests := [{ url := "https://w/0", date := 0 }] },
          waits := [] }
        { url := "https://w/1", date := 9 }).nc
      = { cacheLimit := 100, requests := [{ url := "https://w/0", date := 0 }] } ∧
    (emitRequest (fun _ => Except.error "boom")
        { nc := { cacheLimit := 100, requests := [{ url := "https://w/0", date := 0 }] },
          waits := [] }
        { url := "https://w/1", date := 9 }).waits
      = ([] : List WaitSt).map (fun w => listenerStep w { url := "https://w/1", date := 9 }) :=
  C8_validator_failure_amended (fun _ => Except.error "boom")
    { nc := { cacheLimit := 100, requests := [{ url := "https://w/0", date := 0 }] },
      waits := [] }
    { url := "https://w/1", date := 9 } "boom" rfl

/-! ## C9: a timed-out wait is frame-preserving -/

lemma modifyNth_length {α : Type} (f : α → α) :
    ∀ (i : Nat) (l : List α), (modifyNth f i l).length = l.length := by
  intro i l
  induction l generalizing i with
  | nil =>
      cases i <;> rfl
  | cons x xs ih =>
      cases i with
      | zero => rfl
      | succ n =>
          show (x :: modifyNth f n xs).length = (x :: xs).length
          simp [ih]

lemma modifyNth_get?_ne {α : Type} (f : α → α) :
    ∀ (i j : Nat) (l : List α), j ≠ i → (modifyNth f i l).get? j = l.get? j := by
  intro i j l
  induction l generalizing i j with
  | nil =>
      intro _
      cases i <;> rfl
  | cons x xs ih =>
      intro h
      cases i with
      | zero =>
          cases j with
          | zero => exact absurd rfl h
          | succ k => rfl
      | succ n =>
          cases j with
          | zero => rfl
          | succ k =>
              show (x :: modifyNth f n xs).get? (k + 1) = (x :: xs).get? (k + 1)
              simp only [List.get?_cons_succ]
              exact ih n k (by omega)

lemma modifyNth_get?_self {α : Type} (f : α → α) :
    ∀ (i : Nat) (l : List α), (modifyNth f i l).get? i = Option.map f (l.get? i) := by
  intro i l
  induction l generalizing i with
  | nil =>
      cases i <;> rfl
  | cons x xs ih =>
      cases i with
      | zero => rfl
      | succ n =>
          show (x :: modifyNth f n xs).get? (n + 1) = Option.map f ((x :: xs).get? (n + 1))
          simp only [List.get?_cons_succ]
          exact ih n

/-- Claim C9: the timeout handler of one wait mutates only that wait. It
leaves the cache (the request store; the response store is the symmetric
copy) unchanged, preserves the number of attached waits, leaves every other
wait's entire state — phase, subscription flag and timer flag — untouched,
and acts on its own wait exactly as `timerFire` (removing its own listener
and rejecting its own promise only). -/
theorem C9_timeout_frame (sys : CacheSystem) (i : Nat) :
    (sysTimerFire sys i).nc = sys.nc ∧
    (sysTimerFire sys i).waits.length = sys.waits.length ∧
    (∀ j, j ≠ i → (sysTimerFire sys i).waits.get? j = sys.waits.get? j) ∧
    (sysTimerFire sys i).waits.get? i = Option.map timerFire (sys.waits.get? i) := by
  refine ⟨rfl, modifyNth_length timerFire i sys.waits, ?_,
    modifyNth_get?_self timerFire i sys.waits⟩
  intro j hj
  exact modifyNth_get?_ne timerFire i j sys.waits hj

/-- Witness for C9: a system with two pending waits; firing the first wait's
timer leaves the store and the second wait untouched. -/
theorem C9_timeout_frame_witness :
    (sysTimerFire
        { nc := { cacheLimit := 100, requests := [{ url := "https://q/0", date := 0 }] },
          waits := [waitRequestStart { cacheLimit := 100, requests := [] }
                      (fun u => u == "https://p/1") 20000,
                    waitRequestStart { cacheLimit := 100, requests := [] }
                      (fun u => u == "https://p/2") 30] } 0).nc
      = { cacheLimit := 100, requests := [{ url := "https://q/0", date := 0 }] } ∧
    (sysTimerFire
        { nc := { cacheLimit := 100, requests := [{ url := "https://q/0", date := 0 }] },
          waits := [waitRequestStart { cacheLimit := 100, requests := [] }
                      (fun u => u == "https://p/1") 20000,
                    waitRequestStart { cacheLimit := 100, requests := [] }
                      (fun u => u == "https://p/2") 30] } 0).waits.get? 1
      = (([waitRequestStart { cacheLimit := 100, requests := [] }
              (fun u => u == "https://p/1") 20000,
           waitRequestStart { cacheLimit := 100, requests := [] }
              (fun u => u == "https://p/2") 30]) : List WaitSt).get? 1 :=
  ⟨(C9_timeout_frame
      { nc := { cacheLimit := 100, requests := [{ url := "https://q/0", date := 0 }] },
        waits := [waitRequestStart { cacheLimit := 100, requests := [] }
                    (fun u => u == "https://p/1") 20000,
                  waitRequestStart { cacheLimit := 100, requests := [] }
                    (fun u => u == "https://p/2") 30] } 0).1,
   (C9_timeout_frame
      { nc := { cacheLimit := 100, requests := [{ url := "https://q/0", date := 0 }] },
        waits := [waitRequestStart { cacheLimit := 100, requests := [] }
                    (fun u => u == "https://p/1") 20000,
                  waitRequestStart { cacheLimit := 100, requests := [] }
                    (fun u => u == "https://p/2") 30] } 0).2.2.1 1 (by decide)⟩
